import Mathlib

/-!
Shallow embedding of the `python_base_command` package: the dual-mode
argument parser (`CommandParser`), the command execution contract
(`BaseCommand.execute`, `BaseCommand.run_from_argv`), the programmatic
entry point (`call_command`), the label specialization
(`LabelCommand.handle`), the manual registry dispatch
(`CommandRegistry.run`) and the auto-discovery runner (`Runner`).

Python exceptions are modelled by an explicit outcome type, `sys.exit`
by an `exited` outcome, writes to the output/error sinks by lists of
written strings, and Python dictionaries by association lists with
first-match lookup and in-place overwrite on insert.
-/

namespace PyBaseCommand

/-! Python string ordering: `sorted` compares strings lexicographically
by code point.  Defined over the character list so that every use is
kernel-evaluable. -/

/-- Strict code-point comparison of one character pair. -/
def charLtB (a b : Char) : Bool := a.toNat < b.toNat

/-- Strict lexicographic comparison of character lists, as Python compares
strings. -/
def strLtB : List Char → List Char → Bool
  | _, [] => false
  | [], _ :: _ => true
  | a :: as, b :: bs => charLtB a b || (a.toNat == b.toNat && strLtB as bs)

/-- Non-strict string order used to model Python `sorted`. -/
def pyLe (a b : String) : Prop := strLtB b.data a.data = false

instance : DecidableRel pyLe := fun a b => by unfold pyLe; infer_instance

theorem strLtB_asymm (x y : List Char) (hxy : strLtB x y = true)
    (hyx : strLtB y x = true) : False := by
  induction x generalizing y with
  | nil => cases y with
    | nil => simp [strLtB] at hxy
    | cons b bs => simp [strLtB] at hyx
  | cons a as ih =>
    cases y with
    | nil => simp [strLtB] at hxy
    | cons b bs =>
      simp only [strLtB, charLtB, Bool.or_eq_true, Bool.and_eq_true,
        decide_eq_true_eq, beq_iff_eq] at hxy hyx
      rcases hxy with h1 | ⟨he1, h1⟩ <;> rcases hyx with h2 | ⟨he2, h2⟩ <;>
        first
          | omega
          | exact ih bs h1 h2

theorem strLtB_notlt_trans (z : List Char) : ∀ (x y : List Char),
    strLtB y x = false → strLtB z y = false → strLtB z x = false := by
  induction z with
  | nil =>
    intro x y h1 h2
    cases y with
    | nil =>
      cases x with
      | nil => rfl
      | cons a as => simp [strLtB] at h1
    | cons b bs => simp [strLtB] at h2
  | cons c cs ih =>
    intro x y h1 h2
    cases x with
    | nil => rfl
    | cons a as =>
      cases y with
      | nil => simp [strLtB] at h1
      | cons b bs =>
        simp only [strLtB, charLtB, Bool.or_eq_false_iff, Bool.and_eq_false_iff,
          decide_eq_false_iff_not, Nat.not_lt, beq_eq_false_iff_ne, ne_eq] at h1 h2 ⊢
        refine ⟨by omega, ?_⟩
        rcases h1.2 with hne | hb1
        · left; omega
        · rcases h2.2 with hne | hb2
          · left; omega
          · right; exact ih as bs hb1 hb2

instance : IsTrans String pyLe :=
  ⟨fun a b c h1 h2 => strLtB_notlt_trans c.data a.data b.data h1 h2⟩

instance : IsTotal String pyLe := by
  refine ⟨fun a b => ?_⟩
  unfold pyLe
  cases h1 : strLtB b.data a.data with
  | false => exact Or.inl rfl
  | true =>
    cases h2 : strLtB a.data b.data with
    | false => exact Or.inr rfl
    | true => exact absurd (strLtB_asymm _ _ h2 h1) not_false

/-- Python `sorted` on a list of strings. -/
def pySortStrings (l : List String) : List String := List.insertionSort pyLe l

/-- Python `s.startswith(c)` for a one-character prefix. -/
def strHeadIs (s : String) (c : Char) : Bool :=
  match s.data with
  | [] => false
  | d :: _ => d == c

/-! Python values, option dictionaries, exceptions and outcomes. -/

/-- The option values the framework passes around. -/
inductive PyVal
  | bool (b : Bool)
  | int (n : Int)
  | str (s : String)
deriving DecidableEq, Repr

/-- Python truthiness of an option value. -/
def PyVal.truthy : PyVal → Bool
  | .bool b => b
  | .int n => n != 0
  | .str s => s != ""

/-- Truthiness of `options.get(key)`: a missing key is falsy. -/
def truthyOpt : Option PyVal → Bool
  | none => false
  | some v => v.truthy

/-- A Python keyword-options dictionary (`**options`), modelled as an
association list in insertion order. -/
structure OptMap where
  entries : List (String × PyVal)
deriving DecidableEq, Repr

/-- Dictionary read: `options.get(key)`. -/
def OptMap.get (o : OptMap) (k : String) : Option PyVal :=
  (o.entries.find? (fun p => p.1 == k)).map (·.2)

/-- Python `dict.setdefault`: insert only when the key is absent. -/
def OptMap.setdefault (o : OptMap) (k : String) (v : PyVal) : OptMap :=
  if (o.get k).isSome then o else ⟨o.entries ++ [(k, v)]⟩

/-- The exceptions the execution contract distinguishes: `CommandError`
(carrying the concrete class name, the message and `returncode`),
`KeyboardInterrupt`, and any other exception by name. -/
inductive PyExc
  | commandError (className : String) (msg : String) (returncode : Int)
  | keyboardInterrupt
  | other (name : String)
deriving DecidableEq, Repr

/-- How a piece of Python code ends: a normal return, a propagating
exception, or a `sys.exit(code)` process termination. -/
inductive Outcome (α : Type)
  | ok (a : α)
  | raised (e : PyExc)
  | exited (code : Int)
deriving DecidableEq, Repr

/-! CommandParser (base.py): the dual-mode argument parser. -/

/-- The fields of `CommandParser` that govern its failure behaviour
(`base.py`, `CommandParser.__init__`).  `called_from_command_line` is
kept as its truthiness (the Python field is `bool | None`). -/
structure CommandParser where
  missing_args_message : Option String
  called_from_command_line : Bool

/-- Embeds `CommandParser.error` (`base.py` lines 82-86): in CLI mode the
inherited `ArgumentParser.error` prints usage and terminates the process
with status 2; otherwise a `CommandError` with the message prefixed
"Error: " is raised. -/
def CommandParser.error {α : Type} (p : CommandParser) (message : String) : Outcome α :=
  if p.called_from_command_line then .exited 2
  else .raised (.commandError "CommandError" ("Error: " ++ message) 1)

/-- Truthiness of the optional `missing_args_message` (None and the empty
string are falsy). -/
def truthyStrOpt : Option String → Bool
  | none => false
  | some s => s != ""

/-- The guard of the custom missing-arguments branch of
`CommandParser.parse_args`: Python
`not (args or any(not arg.startswith("-") for arg in (args or [])))`. -/
def missingArgsCond (args : List String) : Bool :=
  !(!args.isEmpty || args.any (fun a => !(strHeadIs a '-')))

/-- Embeds `CommandParser.parse_args` (`base.py` lines 73-80).  The
inherited argparse machinery is abstracted as `core`; every failure of
either the custom missing-arguments check or of `core` funnels through
`CommandParser.error`. -/
def CommandParser.parse_args {α : Type} (p : CommandParser)
    (core : List String → Except String α) (args : List String) : Outcome α :=
  if truthyStrOpt p.missing_args_message && missingArgsCond args then
    p.error (p.missing_args_message.getD "")
  else
    match core args with
    | .ok v => .ok v
    | .error m => p.error m

/-! BaseCommand (base.py): the execution contract. -/

/-- What a `handle` call does: return an optional string, or raise. -/
inductive HandleResult
  | ok (out : Option String)
  | raise (e : PyExc)

/-- The per-command data `execute` consults: the `output_transaction`
class attribute and the subclass `handle` implementation (given the
positional arguments and the parsed options). -/
structure CommandSpec where
  output_transaction : Bool
  handle : List String → OptMap → HandleResult

/-- Outcome of `execute` together with the writes made to the command's
stdout sink. -/
structure ExecResult where
  outcome : Outcome (Option String)
  stdoutWrites : List String
deriving DecidableEq, Repr

/-- Embeds `BaseCommand.execute` (`base.py` lines 329-360): the
`--no-color`/`--force-color` conflict check, the `handle` call, and the
reporting of a truthy result through stdout, wrapped in `BEGIN;`/`COMMIT;`
markers when `output_transaction` is set.  The style and sink-override
assignments affect only collaborators outside this model. -/
def BaseCommand.execute (cmd : CommandSpec) (args : List String)
    (options : OptMap) : ExecResult :=
  if truthyOpt (options.get "force_color") && truthyOpt (options.get "no_color") then
    ⟨.raised (.commandError "CommandError"
      "The --no-color and --force-color options can't be used together." 1), []⟩
  else
    match cmd.handle args options with
    | .raise e => ⟨.raised e, []⟩
    | .ok none => ⟨.ok none, []⟩
    | .ok (some s) =>
        if s != "" then
          let out := if cmd.output_transaction then "BEGIN;\n" ++ s ++ "\nCOMMIT;" else s
          ⟨.ok (some out), [out]⟩
        else ⟨.ok (some s), []⟩

/-- Outcome of `run_from_argv` together with the stdout and stderr
writes. -/
structure RunResult where
  outcome : Outcome Unit
  stdoutWrites : List String
  stderrWrites : List String
deriving DecidableEq, Repr

/-- Embeds the `try`/`except` body of `BaseCommand.run_from_argv`
(`base.py` lines 318-327), starting from the already-parsed positional
arguments and options (parsing is `CommandParser.parse_args`, which in
this CLI mode terminates the process itself on failure).  `CommandError`
is re-raised under `--traceback`, otherwise reported and converted to
`sys.exit(e.returncode)`; `KeyboardInterrupt` reports "Aborted." and
exits 1; anything else propagates. -/
def BaseCommand.run_from_argv (cmd : CommandSpec) (args : List String)
    (options : OptMap) : RunResult :=
  match BaseCommand.execute cmd args options with
  | ⟨.ok _, w⟩ => ⟨.ok (), w, []⟩
  | ⟨.raised (.commandError n m rc), w⟩ =>
      if truthyOpt (options.get "traceback") then
        ⟨.raised (.commandError n m rc), w, []⟩
      else
        ⟨.exited rc, w, [n ++ ": " ++ m]⟩
  | ⟨.raised .keyboardInterrupt, w⟩ => ⟨.exited 1, w, ["\nAborted."]⟩
  | ⟨.raised e, w⟩ => ⟨.raised e, w, []⟩
  | ⟨.exited c, w⟩ => ⟨.exited c, w, []⟩

/-! call_command (utils.py): the programmatic entry point. -/

/-- Embeds the four `options.setdefault` calls of `call_command`
(`utils.py` lines 54-57). -/
def call_command_defaults (options : OptMap) : OptMap :=
  ((((options.setdefault "verbosity" (.int 1)).setdefault
      "no_color" (.bool false)).setdefault
      "force_color" (.bool false)).setdefault
      "traceback" (.bool false))

/-- Embeds `call_command` (`utils.py` lines 22-59) applied to a
`BaseCommand` subclass or instance: defaults are filled in and
`execute` is called directly. -/
def call_command (cmd : CommandSpec) (args : List String)
    (options : OptMap) : ExecResult :=
  BaseCommand.execute cmd args (call_command_defaults options)

/-- A Python class as `call_command` actually treats its argument: a
flag for whether it subclasses `BaseCommand`, whether an `execute`
attribute exists on its instances, and that attribute's behaviour. -/
structure PyClassDyn where
  isBaseCommandSubclass : Bool
  hasExecuteAttr : Bool
  executeImpl : List String → OptMap → ExecResult

/-- The argument of `call_command`: a type (`isinstance(command, type)`)
or an already-constructed instance. -/
inductive CallArg
  | cls (c : PyClassDyn)
  | inst (c : PyClassDyn)

/-- Embeds `call_command` (`utils.py` lines 50-59) on an arbitrary
argument: a type is instantiated (`command = command()`); no subclass
check is performed; the defaults are filled in; then `command.execute`
is looked up and called — an object without that attribute fails with
`AttributeError` at the attribute access. -/
def call_command_dyn (arg : CallArg) (args : List String)
    (options : OptMap) : ExecResult :=
  let c := match arg with
    | .cls c => c
    | .inst c => c
  if c.hasExecuteAttr then c.executeImpl args (call_command_defaults options)
  else ⟨.raised (.other "AttributeError"), []⟩

/-! LabelCommand (base.py): the label-repetition specialization. -/

/-- Embeds `LabelCommand.handle` (`base.py` lines 396-402):
`handle_label` is called once per label in order, truthy results are
collected, and the collection is newline-joined, `None` when empty. -/
def LabelCommand.handle (handle_label : String → Option String)
    (labels : List String) : Option String :=
  let output := labels.foldl (fun acc label =>
    match handle_label label with
    | some r => if r != "" then acc ++ [r] else acc
    | none => acc) []
  if output.isEmpty then none else some (String.intercalate "\n" output)

/-! CommandRegistry (registry.py) and Runner (runner.py). -/

/-- A command class as the registry/runner stores it: an identity tag
(the Python class name), whether it subclasses `BaseCommand`, and its
`help` class attribute. -/
structure CmdClass where
  className : String
  isBaseCommandSubclass : Bool
  help : String
deriving DecidableEq, Repr

/-- A Python `dict[str, type[BaseCommand]]` in insertion order. -/
abbrev CmdDict := List (String × CmdClass)

/-- Dictionary read (`dict.get`): first match wins; entries have unique
keys whenever built by `dinsert`. -/
def dlookup : CmdDict → String → Option CmdClass
  | [], _ => none
  | (k, v) :: rest, key => if k == key then some v else dlookup rest key

/-- Dictionary write (`d[k] = v`): overwrite in place, else append. -/
def dinsert : CmdDict → String → CmdClass → CmdDict
  | [], k, v => [(k, v)]
  | (k', v') :: rest, k, v =>
      if k' == k then (k, v) :: rest else (k', v') :: dinsert rest k v

/-- The keys of a dictionary in insertion order. -/
def dkeys (d : CmdDict) : List String := d.map (·.1)

/-- Embeds `CommandRegistry.list_commands` (`registry.py` lines 80-82):
`sorted(self._commands)`. -/
def list_commands (d : CmdDict) : List String := pySortStrings (dkeys d)

/-- The help text shown for one command in the usage table:
`cls.help or "(no description)"`. -/
def helpDesc (cls : CmdClass) : String :=
  if cls.help != "" then cls.help else "(no description)"

/-- Embeds the table printed by `CommandRegistry._print_help`
(`registry.py` lines 115-122): for each name of `list_commands()` in
order, the name and `self._commands[name].help or "(no description)"`. -/
def registryHelpTable (d : CmdDict) : List (String × String) :=
  (list_commands d).map (fun name =>
    (name, match dlookup d name with
           | some cls => helpDesc cls
           | none => ""))

/-- Ordering of `(name, class)` pairs as Python `sorted(commands.items())`
orders them when the names are unique: by name. -/
def pairLe (p q : String × CmdClass) : Prop := pyLe p.1 q.1

instance : DecidableRel pairLe := fun p q =>
  inferInstanceAs (Decidable (pyLe p.1 q.1))

/-- Embeds the table printed by `Runner._print_help` (`runner.py` lines
161-168): `for name, cls in sorted(commands.items())`. -/
def runnerHelpTable (d : CmdDict) : List (String × String) :=
  (List.insertionSort pairLe d).map (fun p => (p.1, helpDesc p.2))

/-- What a `run(argv)` dispatch does, structurally: print the usage
table and exit, log an unknown-command error and exit, or construct the
resolved command class and invoke `run_from_argv` on the reshaped argv. -/
inductive DispatchResult
  | helpExit (code : Int) (prog : String) (table : List (String × String))
  | unknownExit (code : Int) (sub : String) (available : List String)
  | invoked (cls : CmdClass) (argv : List String)
deriving DecidableEq, Repr

/-- Embeds the `argv = argv or sys.argv[:]` fallback shared by
`CommandRegistry.run` (`registry.py` line 96) and `Runner.run`
(`runner.py` line 139): `None` and the empty list are falsy. -/
def effectiveArgv (argv : Option (List String)) (sysArgv : List String) : List String :=
  match argv with
  | none => sysArgv
  | some l => if l.isEmpty then sysArgv else l

/-- The available-commands filler of the registry's unknown-command log
line (`registry.py` line 106): `", ".join(...) or "(none registered)"`. -/
def registryAvailableMsg (names : List String) : String :=
  if String.intercalate ", " names != "" then String.intercalate ", " names
  else "(none registered)"

/-- The available-commands filler of the runner's unknown-command log
line (`runner.py` line 150): `", ".join(...) or "(none found)"`. -/
def runnerAvailableMsg (names : List String) : String :=
  if String.intercalate ", " names != "" then String.intercalate ", " names
  else "(none found)"

/-- Embeds `CommandRegistry.run` (`registry.py` lines 84-113) after the
argv fallback: help on a missing or `-h`/`--help` token then exit 0,
logged error then exit 1 on an unknown name, otherwise
`command_class().run_from_argv([argv[0]] + argv[2:])`. -/
def CommandRegistry.runArgv (d : CmdDict) (argv : List String) : DispatchResult :=
  match argv with
  | [] => .helpExit 0 "unknown" (registryHelpTable d)
  | [prog] => .helpExit 0 prog (registryHelpTable d)
  | prog :: sub :: rest =>
      if sub == "-h" || sub == "--help" then
        .helpExit 0 prog (registryHelpTable d)
      else
        match dlookup d sub with
        | none => .unknownExit 1 sub (list_commands d)
        | some cls => .invoked cls (prog :: rest)

/-- Embeds `CommandRegistry.run` including the argv fallback. -/
def CommandRegistry.run (d : CmdDict) (argv : Option (List String))
    (sysArgv : List String) : DispatchResult :=
  CommandRegistry.runArgv d (effectiveArgv argv sysArgv)

/-- Embeds the dispatch part of `Runner.run` (`runner.py` lines 142-159)
over an already-discovered mapping: identical to the registry's except
that the usage table is built from `sorted(commands.items())`. -/
def Runner.runArgv (d : CmdDict) (argv : List String) : DispatchResult :=
  match argv with
  | [] => .helpExit 0 "unknown" (runnerHelpTable d)
  | [prog] => .helpExit 0 prog (runnerHelpTable d)
  | prog :: sub :: rest =>
      if sub == "-h" || sub == "--help" then
        .helpExit 0 prog (runnerHelpTable d)
      else
        match dlookup d sub with
        | none => .unknownExit 1 sub (list_commands d)
        | some cls => .invoked cls (prog :: rest)

/-- `Runner.run` dispatch over a given mapping, including the argv
fallback. -/
def Runner.runWith (d : CmdDict) (argv : Option (List String))
    (sysArgv : List String) : DispatchResult :=
  Runner.runArgv d (effectiveArgv argv sysArgv)

/-! Runner auto-discovery (runner.py, `_discover` and `_load_module`). -/

/-- What dynamically loading one command file yields: its top-level
`Command` attribute (when it is a class — non-classes are modelled as
absent, the subclass test is explicit) and its module-level
`CommandRegistry` instances in `dir(module)` order. -/
structure ModuleContents where
  commandAttr : Option CmdClass
  registries : List CmdDict

/-- How `Runner._load_module` (`runner.py` lines 117-130) ends for one
file: a loaded module, a silent skip (`spec_from_file_location` or its
loader is `None`), or an exception during `exec_module`, which is
logged. -/
inductive LoadResult
  | loaded (m : ModuleContents)
  | specFailure
  | execError (exc : String)

/-- One `*.py` file of the commands directory as discovery sees it. -/
structure FileEntry where
  stem : String
  path : String
  load : LoadResult

/-- The log line of a failed module load (`runner.py` line 128). -/
def loadErrorMsg (f : FileEntry) (exc : String) : String :=
  "Error loading command module '" ++ f.path ++ "': " ++ exc

/-- Embeds the registry-convention merge of one `CommandRegistry`
instance (`runner.py` lines 108-113): every name of `obj.list_commands()`
whose `obj.get(name)` is present is written into the mapping. -/
def registryMergeOne (d : CmdDict) (reg : CmdDict) : CmdDict :=
  (list_commands reg).foldl (fun d name =>
    match dlookup reg name with
    | some cls => dinsert d name cls
    | none => d) d

/-- State of the discovery fold: the mapping built so far and the error
log. -/
structure DiscoverState where
  commands : CmdDict
  log : List String
deriving DecidableEq, Repr

/-- Embeds one iteration of the `Runner._discover` file loop
(`runner.py` lines 95-113): skip underscore-prefixed stems, skip (and
for load exceptions log) files that fail to load, then merge the direct
convention (`Command` class under the file stem) and after it every
registry-convention entry. -/
def processFile (st : DiscoverState) (f : FileEntry) : DiscoverState :=
  if strHeadIs f.stem '_' then st
  else
    match f.load with
    | .specFailure => st
    | .execError exc => ⟨st.commands, st.log ++ [loadErrorMsg f exc]⟩
    | .loaded m =>
        let cmds :=
          match m.commandAttr with
          | some c => if c.isBaseCommandSubclass then dinsert st.commands f.stem c
                      else st.commands
          | none => st.commands
        ⟨m.registries.foldl registryMergeOne cmds, st.log⟩

/-- Ordering of command files as `sorted(dir.glob("*.py"))` orders them:
by path string. -/
def fileLe (a b : FileEntry) : Prop := pyLe a.path b.path

instance : DecidableRel fileLe := fun a b =>
  inferInstanceAs (Decidable (pyLe a.path b.path))

/-- Embeds `Runner._discover` (`runner.py` lines 78-115): an empty
mapping when the commands directory is not a directory, otherwise a fold
of `processFile` over the files in sorted order. -/
def Runner.discover (isDir : Bool) (files : List FileEntry) : DiscoverState :=
  if isDir then (List.insertionSort fileLe files).foldl processFile ⟨[], []⟩
  else ⟨[], []⟩

/-- Embeds `Runner.run` (`runner.py` lines 134-159): rebuild the
discovery mapping, then dispatch. -/
def Runner.run (isDir : Bool) (files : List FileEntry)
    (argv : Option (List String)) (sysArgv : List String) : DispatchResult :=
  Runner.runWith (Runner.discover isDir files).commands argv sysArgv

/-- The sequence of `commands[name] = cls` writes one loaded file makes,
in program order: the direct-convention write first, then the
registry-convention writes. -/
def fileInsertions (stem : String) (m : ModuleContents) : List (String × CmdClass) :=
  (match m.commandAttr with
   | some c => if c.isBaseCommandSubclass then [(stem, c)] else []
   | none => []) ++
  m.registries.flatMap (fun reg =>
    (list_commands reg).filterMap (fun n => (dlookup reg n).map (fun c => (n, c))))

/-- Replay a sequence of dictionary writes. -/
def insertAll (d : CmdDict) (kvs : List (String × CmdClass)) : CmdDict :=
  kvs.foldl (fun d p => dinsert d p.1 p.2) d

/-- The last value a write sequence assigns to a name, if any. -/
def lastProvided : List (String × CmdClass) → String → Option CmdClass
  | [], _ => none
  | (k, v) :: rest, n =>
      match lastProvided rest n with
      | some c => some c
      | none => if k == n then some v else none

/-! Claim C1. -/

/-- C1: with `called_from_command_line` false, no parse failure of
`CommandParser.parse_args` exits the process; every failure (the custom
missing-arguments branch as well as an underlying argparse error)
raises `CommandError` with the underlying message prefixed "Error: ". -/
theorem claim_C1 {α : Type} (p : CommandParser)
    (core : List String → Except String α) (args : List String)
    (hmode : p.called_from_command_line = false) :
    (∀ c, p.parse_args core args ≠ .exited c) ∧
    (∀ mm, p.missing_args_message = some mm → mm ≠ "" → missingArgsCond args = true →
      p.parse_args core args =
        .raised (.commandError "CommandError" ("Error: " ++ mm) 1)) ∧
    (∀ m, (truthyStrOpt p.missing_args_message && missingArgsCond args) = false →
      core args = .error m →
      p.parse_args core args =
        .raised (.commandError "CommandError" ("Error: " ++ m) 1)) := by
  refine ⟨?_, ?_, ?_⟩
  · intro c
    unfold CommandParser.parse_args CommandParser.error
    rw [hmode]
    split
    · simp
    · cases hc : core args <;> simp
  · intro mm hsome hne hcond
    unfold CommandParser.parse_args CommandParser.error
    rw [hmode, hsome]
    have ht : truthyStrOpt (some mm) = true := by
      simp [truthyStrOpt, hne]
    rw [ht, hcond]
    simp
  · intro m hcond hcore
    unfold CommandParser.parse_args CommandParser.error
    rw [hmode, hcond, hcore]
    simp

/-- Concrete instance of C1: a programmatic parser with a missing-args
message, on a failing core parse over a non-empty argument list. -/
theorem claim_C1_witness :
    CommandParser.parse_args (α := Unit)
      ⟨some "Enter at least one label.", false⟩
      (fun _ => .error "unrecognized arguments: --bogus") ["--bogus"] =
      .raised (.commandError "CommandError"
        "Error: unrecognized arguments: --bogus" 1) :=
  (claim_C1 ⟨some "Enter at least one label.", false⟩
      (fun _ => .error "unrecognized arguments: --bogus") ["--bogus"] rfl).2.2
    "unrecognized arguments: --bogus" (by decide) rfl

/-! Claim C2. -/

/-- C2: `run_from_argv` catches a `CommandError` raised during
execution — re-raised unchanged under `--traceback`, otherwise the
error sink receives "ClassName: message" and the process exits with
the error's `returncode`; a `KeyboardInterrupt` writes "Aborted." to the
error sink and exits 1; any other exception propagates uncaught. -/
theorem claim_C2 (cmd : CommandSpec) (args : List String) (options : OptMap) :
    (∀ n m rc,
      (BaseCommand.execute cmd args options).outcome = .raised (.commandError n m rc) →
      (truthyOpt (options.get "traceback") = true →
        BaseCommand.run_from_argv cmd args options =
          ⟨.raised (.commandError n m rc),
           (BaseCommand.execute cmd args options).stdoutWrites, []⟩) ∧
      (truthyOpt (options.get "traceback") = false →
        BaseCommand.run_from_argv cmd args options =
          ⟨.exited rc,
           (BaseCommand.execute cmd args options).stdoutWrites, [n ++ ": " ++ m]⟩)) ∧
    ((BaseCommand.execute cmd args options).outcome = .raised .keyboardInterrupt →
      BaseCommand.run_from_argv cmd args options =
        ⟨.exited 1, (BaseCommand.execute cmd args options).stdoutWrites, ["\nAborted."]⟩) ∧
    (∀ nm, (BaseCommand.execute cmd args options).outcome = .raised (.other nm) →
      BaseCommand.run_from_argv cmd args options =
        ⟨.raised (.other nm), (BaseCommand.execute cmd args options).stdoutWrites, []⟩) := by
  refine ⟨?_, ?_, ?_⟩
  · intro n m rc h
    refine ⟨?_, ?_⟩ <;> intro ht <;>
      · rcases hE : BaseCommand.execute cmd args options with ⟨out, w⟩
        rw [hE] at h
        simp only at h
        subst h
        unfold BaseCommand.run_from_argv
        rw [hE]
        simp [ht]
  · intro h
    rcases hE : BaseCommand.execute cmd args options with ⟨out, w⟩
    rw [hE] at h
    simp only at h
    subst h
    unfold BaseCommand.run_from_argv
    rw [hE]
  · intro nm h
    rcases hE : BaseCommand.execute cmd args options with ⟨out, w⟩
    rw [hE] at h
    simp only at h
    subst h
    unfold BaseCommand.run_from_argv
    rw [hE]

/-- Command used by concrete witnesses: `handle` raises
`CommandError("boom", returncode=7)`. -/
def boomCommand : CommandSpec :=
  ⟨false, fun _ _ => .raise (.commandError "CommandError" "boom" 7)⟩

/-- Concrete instance of C2: without `--traceback` the CommandError is
reported as "CommandError: boom" and the process exits with code 7. -/
theorem claim_C2_witness :
    BaseCommand.run_from_argv boomCommand [] ⟨[("traceback", .bool false)]⟩ =
      ⟨.exited 7, [], ["CommandError: boom"]⟩ :=
  ((claim_C2 boomCommand [] ⟨[("traceback", .bool false)]⟩).1
    "CommandError" "boom" 7 rfl).2 rfl

/-! Claim C3. -/

theorem OptMap.get_setdefault_self (o : OptMap) (k : String) (v : PyVal) :
    (o.setdefault k v).get k = some ((o.get k).getD v) := by
  unfold OptMap.setdefault
  cases hg : o.get k with
  | some w => simp [hg]
  | none =>
    have hf : o.entries.find? (fun p => p.1 == k) = none := by
      cases hf : o.entries.find? (fun p => p.1 == k) with
      | none => rfl
      | some p => unfold OptMap.get at hg; rw [hf] at hg; simp at hg
    simp only [hg, Option.isSome_none, Bool.false_eq_true, if_false]
    unfold OptMap.get
    rw [List.find?_append, hf]
    simp [List.find?_cons]

theorem OptMap.get_setdefault_of_ne (o : OptMap) (k : String) (v : PyVal)
    (k' : String) (h : k' ≠ k) : (o.setdefault k v).get k' = o.get k' := by
  unfold OptMap.setdefault
  split
  · rfl
  · unfold OptMap.get
    rw [List.find?_append]
    have hk : (k == k') = false := by
      simp only [beq_eq_false_iff_ne, ne_eq]
      exact fun hkk => h hkk.symm
    simp [List.find?_cons, hk]

theorem execute_outcome_ne_exited (cmd : CommandSpec) (args : List String)
    (options : OptMap) (c : Int) :
    (BaseCommand.execute cmd args options).outcome ≠ .exited c := by
  unfold BaseCommand.execute
  split
  · simp
  · cases h : cmd.handle args options with
    | raise e => simp
    | ok out =>
      cases out with
      | none => simp
      | some s =>
        simp only
        split <;> simp

/-- C3: `call_command` never terminates the process whatever `handle`
does; it calls `execute` directly on the defaulted options, so a
`CommandError` raised by `handle` propagates to the caller; and each of
the four base-option defaults is supplied exactly when the caller did
not pass that option, leaving every other option untouched. -/
theorem claim_C3 (cmd : CommandSpec) (args : List String) (options : OptMap) :
    (∀ c, (call_command cmd args options).outcome ≠ .exited c) ∧
    call_command cmd args options =
      BaseCommand.execute cmd args (call_command_defaults options) ∧
    (∀ e, (truthyOpt ((call_command_defaults options).get "force_color") &&
           truthyOpt ((call_command_defaults options).get "no_color")) = false →
      cmd.handle args (call_command_defaults options) = .raise e →
      call_command cmd args options = ⟨.raised e, []⟩) ∧
    (call_command_defaults options).get "verbosity" =
      some ((options.get "verbosity").getD (.int 1)) ∧
    (call_command_defaults options).get "no_color" =
      some ((options.get "no_color").getD (.bool false)) ∧
    (call_command_defaults options).get "force_color" =
      some ((options.get "force_color").getD (.bool false)) ∧
    (call_command_defaults options).get "traceback" =
      some ((options.get "traceback").getD (.bool false)) ∧
    (∀ k, k ≠ "verbosity" → k ≠ "no_color" → k ≠ "force_color" → k ≠ "traceback" →
      (call_command_defaults options).get k = options.get k) := by
  refine ⟨fun c => execute_outcome_ne_exited cmd args _ c, rfl, ?_, ?_, ?_, ?_, ?_, ?_⟩
  · intro e hcolor hraise
    unfold call_command BaseCommand.execute
    rw [hcolor]
    simp only [Bool.false_eq_true, if_false]
    rw [hraise]
  · unfold call_command_defaults
    rw [OptMap.get_setdefault_of_ne _ _ _ _ (by decide),
        OptMap.get_setdefault_of_ne _ _ _ _ (by decide),
        OptMap.get_setdefault_of_ne _ _ _ _ (by decide),
        OptMap.get_setdefault_self]
  · unfold call_command_defaults
    rw [OptMap.get_setdefault_of_ne _ _ _ _ (by decide),
        OptMap.get_setdefault_of_ne _ _ _ _ (by decide),
        OptMap.get_setdefault_self,
        OptMap.get_setdefault_of_ne _ _ _ _ (by decide)]
  · unfold call_command_defaults
    rw [OptMap.get_setdefault_of_ne _ _ _ _ (by decide),
        OptMap.get_setdefault_self,
        OptMap.get_setdefault_of_ne _ _ _ _ (by decide),
        OptMap.get_setdefault_of_ne _ _ _ _ (by decide)]
  · unfold call_command_defaults
    rw [OptMap.get_setdefault_self,
        OptMap.get_setdefault_of_ne _ _ _ _ (by decide),
        OptMap.get_setdefault_of_ne _ _ _ _ (by decide),
        OptMap.get_setdefault_of_ne _ _ _ _ (by decide)]
  · intro k h1 h2 h3 h4
    unfold call_command_defaults
    rw [OptMap.get_setdefault_of_ne _ _ _ _ h4,
        OptMap.get_setdefault_of_ne _ _ _ _ h3,
        OptMap.get_setdefault_of_ne _ _ _ _ h2,
        OptMap.get_setdefault_of_ne _ _ _ _ h1]

/-- Concrete instance of C3: a `handle` that raises propagates the
`CommandError` out of `call_command` instead of exiting. -/
theorem claim_C3_witness :
    (call_command boomCommand [] ⟨[]⟩).outcome ≠ .exited 7 ∧
    call_command boomCommand [] ⟨[]⟩ =
      ⟨.raised (.commandError "CommandError" "boom" 7), []⟩ ∧
    (call_command_defaults ⟨[]⟩).get "verbosity" = some (.int 1) :=
  ⟨(claim_C3 boomCommand [] ⟨[]⟩).1 7,
   (claim_C3 boomCommand [] ⟨[]⟩).2.2.1 (.commandError "CommandError" "boom" 7)
     (by decide) rfl,
   (claim_C3 boomCommand [] ⟨[]⟩).2.2.2.1⟩

/-! Claim C4. -/

/-- A class that is not a `BaseCommand` subclass but duck-types the
contract: its instances expose a working `execute`. -/
def duckClass : PyClassDyn :=
  ⟨false, true, fun _ _ => ⟨.ok (some "duck ran"), ["duck ran"]⟩⟩

/-- C4 counterexample: `call_command` applied to a type that is not a
`BaseCommand` subclass does not fail with a type error before any
command logic runs — the type is instantiated, its `execute` is called,
its command logic runs (it writes to stdout) and the call succeeds. -/
theorem claim_C4_counterexample :
    duckClass.isBaseCommandSubclass = false ∧
    call_command_dyn (.cls duckClass) ["x"] ⟨[]⟩ =
      duckClass.executeImpl ["x"] (call_command_defaults ⟨[]⟩) ∧
    call_command_dyn (.cls duckClass) ["x"] ⟨[]⟩ =
      ⟨.ok (some "duck ran"), ["duck ran"]⟩ :=
  ⟨rfl, rfl, rfl⟩

/-- C4 amended: `call_command` performs no runtime type validation.  A
type argument is instantiated and used regardless of whether it
subclasses `BaseCommand`: when the object has an `execute` attribute
that attribute runs (with the defaulted options), and only an object
without one makes the call fail — with `AttributeError` at the
attribute access, not with a `TypeError` beforehand. -/
theorem claim_C4_amended (c : PyClassDyn) (args : List String) (options : OptMap) :
    (c.hasExecuteAttr = true →
      call_command_dyn (.cls c) args options =
        c.executeImpl args (call_command_defaults options) ∧
      call_command_dyn (.inst c) args options =
        c.executeImpl args (call_command_defaults options)) ∧
    (c.hasExecuteAttr = false →
      call_command_dyn (.cls c) args options = ⟨.raised (.other "AttributeError"), []⟩ ∧
      call_command_dyn (.inst c) args options = ⟨.raised (.other "AttributeError"), []⟩) := by
  constructor <;> intro h <;> constructor <;> simp [call_command_dyn, h]

/-- Concrete instance of the amended C4. -/
theorem claim_C4_amended_witness :
    call_command_dyn (.cls duckClass) ["x"] ⟨[]⟩ =
      duckClass.executeImpl ["x"] (call_command_defaults ⟨[]⟩) :=
  ((claim_C4_amended duckClass ["x"] ⟨[]⟩).1 rfl).1

/-! Claim C7. -/

/-- C7: with `output_transaction` set, a non-empty `handle` result `s`
is wrapped as "BEGIN;\n" ++ s ++ "\nCOMMIT;" and written exactly once to
the stdout sink; an empty or absent result writes nothing. -/
theorem claim_C7 (cmd : CommandSpec) (args : List String) (options : OptMap)
    (hot : cmd.output_transaction = true)
    (hcolor : (truthyOpt (options.get "force_color") &&
               truthyOpt (options.get "no_color")) = false) :
    (∀ s, cmd.handle args options = .ok (some s) → s ≠ "" →
      BaseCommand.execute cmd args options =
        ⟨.ok (some ("BEGIN;\n" ++ s ++ "\nCOMMIT;")), ["BEGIN;\n" ++ s ++ "\nCOMMIT;"]⟩) ∧
    (cmd.handle args options = .ok (some "") →
      BaseCommand.execute cmd args options = ⟨.ok (some ""), []⟩) ∧
    (cmd.handle args options = .ok none →
      BaseCommand.execute cmd args options = ⟨.ok none, []⟩) := by
  refine ⟨?_, ?_, ?_⟩
  · intro s hr hs
    unfold BaseCommand.execute
    rw [hcolor]
    simp only [Bool.false_eq_true, if_false]
    rw [hr]
    simp [hs, hot]
  · intro hr
    unfold BaseCommand.execute
    rw [hcolor]
    simp [hr]
  · intro hr
    unfold BaseCommand.execute
    rw [hcolor]
    simp [hr]

/-- Command used by the C7 witness: `output_transaction` with `handle`
returning "SELECT 1;". -/
def sqlCommand : CommandSpec := ⟨true, fun _ _ => .ok (some "SELECT 1;")⟩

/-- Concrete instance of C7: the report is exactly one write holding
BEGIN;, the handle output and COMMIT; in that order. -/
theorem claim_C7_witness :
    BaseCommand.execute sqlCommand [] ⟨[]⟩ =
      ⟨.ok (some ("BEGIN;\n" ++ "SELECT 1;" ++ "\nCOMMIT;")),
       ["BEGIN;\n" ++ "SELECT 1;" ++ "\nCOMMIT;"]⟩ :=
  (claim_C7 sqlCommand [] ⟨[]⟩ rfl rfl).1 "SELECT 1;" rfl (by decide)

/-! Claim C8. -/

theorem label_collect (hl : String → Option String) (labels : List String) :
    ∀ acc : List String,
      labels.foldl (fun acc label =>
        match hl label with
        | some r => if r != "" then acc ++ [r] else acc
        | none => acc) acc
      = acc ++ (labels.filterMap hl).filter (fun r => r != "") := by
  induction labels with
  | nil => intro acc; simp
  | cons l ls ih =>
    intro acc
    rw [List.foldl_cons, ih]
    cases h : hl l with
    | none => simp [List.filterMap_cons, h]
    | some r =>
      simp only [List.filterMap_cons, h, List.filter_cons]
      by_cases hr : (r != "") = true
      · simp [hr]
      · simp only [hr, Bool.false_eq_true, if_false]

/-- C8: `LabelCommand.handle` calls `handle_label` once per label in
order, keeps the non-empty results in order and joins them with
newlines; when every label produced an empty result the overall result
is `None`, not an empty string. -/
theorem claim_C8 (handle_label : String → Option String) (labels : List String) :
    (LabelCommand.handle handle_label labels =
      if ((labels.filterMap handle_label).filter (fun r => r != "")).isEmpty then none
      else some (String.intercalate "\n"
        ((labels.filterMap handle_label).filter (fun r => r != "")))) ∧
    ((∀ l ∈ labels, handle_label l = none ∨ handle_label l = some "") →
      LabelCommand.handle handle_label labels = none) := by
  have h1 : LabelCommand.handle handle_label labels =
      if ((labels.filterMap handle_label).filter (fun r => r != "")).isEmpty then none
      else some (String.intercalate "\n"
        ((labels.filterMap handle_label).filter (fun r => r != ""))) := by
    unfold LabelCommand.handle
    rw [label_collect]
    simp
  refine ⟨h1, ?_⟩
  intro hall
  have hnil : (labels.filterMap handle_label).filter (fun r => r != "") = [] := by
    rw [List.filter_eq_nil_iff]
    intro r hr
    rcases List.mem_filterMap.mp hr with ⟨l, hlmem, hfl⟩
    rcases hall l hlmem with h0 | h0 <;> rw [h0] at hfl
    · cases hfl
    · cases hfl
      simp
  rw [h1, hnil]
  rfl

/-- Per-label handler used by the C8 witness, agreeing with
`label.upper()` on the labels used. -/
def upperAB : String → Option String :=
  fun l => if l = "a" then some "A" else if l = "b" then some "B" else some ""

/-- Per-label handler used by the C8 witness that always produces an
empty result. -/
def blankLabel : String → Option String := fun _ => some ""

/-- Concrete instance of C8: labels ["a","b"] with an upper-casing
handler yield "A\nB"; labels that all produce empty output yield
`None`. -/
theorem claim_C8_witness :
    LabelCommand.handle upperAB ["a", "b"] = some "A\nB" ∧
    LabelCommand.handle blankLabel ["a", "b"] = none := by
  constructor
  · rw [(claim_C8 upperAB ["a", "b"]).1]
    decide
  · exact (claim_C8 blankLabel ["a", "b"]).2 (by decide)

/-! Claim C5. -/

theorem map_fst_orderedInsert (p : String × CmdClass) (l : List (String × CmdClass)) :
    (List.orderedInsert pairLe p l).map (·.1) =
      List.orderedInsert pyLe p.1 (l.map (·.1)) := by
  induction l with
  | nil => rfl
  | cons q qs ih =>
    by_cases h : pairLe p q
    · have h' : pyLe p.1 q.1 := h
      simp [List.orderedInsert, h, h']
    · have h' : ¬ pyLe p.1 q.1 := h
      simp [List.orderedInsert, h, h', ih]

theorem map_fst_insertionSort (l : List (String × CmdClass)) :
    (List.insertionSort pairLe l).map (·.1) =
      List.insertionSort pyLe (l.map (·.1)) := by
  induction l with
  | nil => rfl
  | cons q qs ih =>
    simp only [List.insertionSort, List.map_cons]
    rw [map_fst_orderedInsert, ih]

theorem dlookup_of_mem_nodup (d : CmdDict) (k : String) (v : CmdClass)
    (hnd : (dkeys d).Nodup) (hmem : (k, v) ∈ d) : dlookup d k = some v := by
  induction d with
  | nil => cases hmem
  | cons q qs ih =>
    rcases List.mem_cons.mp hmem with heq | hmem2
    · rw [← heq]
      simp [dlookup]
    · have hnd2 := (List.nodup_cons.mp hnd).2
      have hknot : q.1 ∉ dkeys qs := (List.nodup_cons.mp hnd).1
      have hne : (q.1 == k) = false := by
        simp only [beq_eq_false_iff_ne, ne_eq]
        intro hq
        exact hknot (hq ▸ List.mem_map_of_mem (·.1) hmem2)
      rcases q with ⟨qk, qv⟩
      simp only [dlookup, hne, Bool.false_eq_true, if_false]
      exact ih hnd2 hmem2

theorem helpTable_eq (d : CmdDict) (hnd : (dkeys d).Nodup) :
    registryHelpTable d = runnerHelpTable d := by
  unfold registryHelpTable runnerHelpTable list_commands pySortStrings
  rw [show dkeys d = d.map (·.1) from rfl, ← map_fst_insertionSort, List.map_map]
  apply List.map_congr_left
  intro p hp
  have hpd : p ∈ d := ((List.perm_insertionSort pairLe d).mem_iff).mp hp
  have hlk : dlookup d p.1 = some p.2 := by
    apply dlookup_of_mem_nodup d p.1 p.2 hnd
    simpa using hpd
  simp [Function.comp, hlk]

theorem registry_runArgv_cons2 (d : CmdDict) (prog sub : String) (rest : List String) :
    CommandRegistry.runArgv d (prog :: sub :: rest) =
      if sub == "-h" || sub == "--help" then
        .helpExit 0 prog (registryHelpTable d)
      else
        match dlookup d sub with
        | none => .unknownExit 1 sub (list_commands d)
        | some cls => .invoked cls (prog :: rest) := rfl

theorem runArgv_eq_of_table (d : CmdDict) (ht : registryHelpTable d = runnerHelpTable d) :
    ∀ argv, CommandRegistry.runArgv d argv = Runner.runArgv d argv := by
  intro argv
  cases argv with
  | nil => simp [CommandRegistry.runArgv, Runner.runArgv, ht]
  | cons prog rest =>
    cases rest with
    | nil => simp [CommandRegistry.runArgv, Runner.runArgv, ht]
    | cons sub rest2 =>
      unfold CommandRegistry.runArgv Runner.runArgv
      rw [ht]

/-- C5: with a well-formed (duplicate-free) command mapping, registry
and runner dispatch identically on every argv; an absent sub-command
token or a help flag prints the usage table (the sorted name/help-text
pairs) and exits 0; an unknown token reports it with the sorted
available names and exits 1; a known token constructs the command and
invokes `run_from_argv` on `[argv[0]] ++ argv[2:]`. -/
theorem claim_C5 (d : CmdDict) (hnd : (dkeys d).Nodup)
    (argv : Option (List String)) (sysArgv : List String) :
    CommandRegistry.run d argv sysArgv = Runner.runWith d argv sysArgv ∧
    ((effectiveArgv argv sysArgv).length < 2 →
      CommandRegistry.run d argv sysArgv =
        .helpExit 0 ((effectiveArgv argv sysArgv).headD "unknown") (registryHelpTable d)) ∧
    (∀ prog sub rest, effectiveArgv argv sysArgv = prog :: sub :: rest →
      ((sub = "-h" ∨ sub = "--help") →
        CommandRegistry.run d argv sysArgv = .helpExit 0 prog (registryHelpTable d)) ∧
      (sub ≠ "-h" → sub ≠ "--help" → dlookup d sub = none →
        CommandRegistry.run d argv sysArgv = .unknownExit 1 sub (list_commands d)) ∧
      (∀ cls, sub ≠ "-h" → sub ≠ "--help" → dlookup d sub = some cls →
        CommandRegistry.run d argv sysArgv = .invoked cls (prog :: rest))) ∧
    (registryHelpTable d).map (fun p => p.1) = list_commands d ∧
    List.Sorted pyLe (list_commands d) := by
  refine ⟨?_, ?_, ?_, ?_, ?_⟩
  · unfold CommandRegistry.run Runner.runWith
    exact runArgv_eq_of_table d (helpTable_eq d hnd) _
  · intro hlen
    unfold CommandRegistry.run
    cases he : effectiveArgv argv sysArgv with
    | nil => rfl
    | cons prog rest =>
      cases rest with
      | nil => rfl
      | cons sub rest2 =>
        rw [he] at hlen
        simp only [List.length_cons] at hlen
        omega
  · intro prog sub rest he
    unfold CommandRegistry.run
    rw [he, registry_runArgv_cons2]
    refine ⟨?_, ?_, ?_⟩
    · intro hsub
      rcases hsub with h | h <;> simp [h]
    · intro h1 h2 hlk
      have hb : (sub == "-h" || sub == "--help") = false := by simp [h1, h2]
      rw [hb]
      simp only [Bool.false_eq_true, if_false]
      rw [hlk]
    · intro cls h1 h2 hlk
      have hb : (sub == "-h" || sub == "--help") = false := by simp [h1, h2]
      rw [hb]
      simp only [Bool.false_eq_true, if_false]
      rw [hlk]
  · unfold registryHelpTable
    rw [List.map_map]
    exact List.map_id (list_commands d)
  · exact List.sorted_insertionSort pyLe (dkeys d)

/-- Command classes used by concrete registry/runner witnesses. -/
def cA : CmdClass := ⟨"ACommand", true, "does a"⟩

/-- Second command class used by concrete registry/runner witnesses. -/
def cB : CmdClass := ⟨"BCommand", true, ""⟩

/-- A two-command mapping used by concrete witnesses, stored out of
name order. -/
def d0 : CmdDict := [("b", cB), ("a", cA)]

/-- Concrete instance of C5: registry and runner dispatch the same
request identically and strip the sub-command token. -/
theorem claim_C5_witness :
    CommandRegistry.run d0 (some ["prog", "a", "--x"]) [] =
      Runner.runWith d0 (some ["prog", "a", "--x"]) [] ∧
    CommandRegistry.run d0 (some ["prog", "a", "--x"]) [] =
      .invoked cA ["prog", "--x"] :=
  ⟨(claim_C5 d0 (by decide) (some ["prog", "a", "--x"]) []).1,
   ((claim_C5 d0 (by decide) (some ["prog", "a", "--x"]) []).2.2.1
       "prog" "a" ["--x"] rfl).2.2 cA (by decide) (by decide) rfl⟩

/-! Claim C6. -/

instance : IsTrans FileEntry fileLe :=
  ⟨fun a b c h1 h2 => strLtB_notlt_trans c.path.data a.path.data b.path.data h1 h2⟩

instance : IsTotal FileEntry fileLe :=
  ⟨fun a b => total_of pyLe a.path b.path⟩

theorem dlookup_dinsert (d : CmdDict) (k : String) (v : CmdClass) (n : String) :
    dlookup (dinsert d k v) n = if k == n then some v else dlookup d n := by
  induction d with
  | nil => simp [dinsert, dlookup]
  | cons q qs ih =>
    rcases q with ⟨qk, qv⟩
    by_cases h1 : qk = k
    · subst h1
      simp only [dinsert, beq_self_eq_true, if_true]
      by_cases h2 : qk = n <;> simp [dlookup, h2]
    · have h1b : (qk == k) = false := by simp [h1]
      simp only [dinsert, h1b, Bool.false_eq_true, if_false]
      by_cases h2 : qk = n
      · subst h2
        have h3 : (k == qk) = false := by
          simp only [beq_eq_false_iff_ne, ne_eq]
          exact fun hkq => h1 hkq.symm
        simp [dlookup, h3]
      · have h2b : (qk == n) = false := by simp [h2]
        simp [dlookup, h2b, ih]

theorem dlookup_insertAll (kvs : List (String × CmdClass)) :
    ∀ (d : CmdDict) (n : String),
      dlookup (insertAll d kvs) n =
        match lastProvided kvs n with
        | some c => some c
        | none => dlookup d n := by
  induction kvs with
  | nil => intro d n; rfl
  | cons p rest ih =>
    intro d n
    rcases p with ⟨k, v⟩
    have hstep : insertAll d ((k, v) :: rest) = insertAll (dinsert d k v) rest := rfl
    rw [hstep, ih]
    cases hl : lastProvided rest n with
    | some c => simp [lastProvided, hl]
    | none =>
      simp only [lastProvided, hl]
      rw [dlookup_dinsert]
      by_cases h : k = n
      · simp [h]
      · have hb : (k == n) = false := by simp [h]
        simp [hb]

theorem registryMergeOne_eq (reg : CmdDict) :
    ∀ (names : List String) (d : CmdDict),
      names.foldl (fun d name =>
        match dlookup reg name with
        | some cls => dinsert d name cls
        | none => d) d
      = insertAll d (names.filterMap (fun n => (dlookup reg n).map (fun c => (n, c)))) := by
  intro names
  induction names with
  | nil => intro d; rfl
  | cons n ns ih =>
    intro d
    rw [List.foldl_cons, ih]
    cases h : dlookup reg n with
    | none => simp [List.filterMap_cons, h]
    | some c => simp [List.filterMap_cons, h, insertAll]

theorem insertAll_append (d : CmdDict) (xs ys : List (String × CmdClass)) :
    insertAll d (xs ++ ys) = insertAll (insertAll d xs) ys := by
  unfold insertAll
  rw [List.foldl_append]

theorem registries_fold_eq (regs : List CmdDict) :
    ∀ d : CmdDict,
      regs.foldl registryMergeOne d =
        insertAll d (regs.flatMap (fun reg =>
          (list_commands reg).filterMap (fun n => (dlookup reg n).map (fun c => (n, c))))) := by
  induction regs with
  | nil => intro d; rfl
  | cons r rs ih =>
    intro d
    rw [List.foldl_cons, ih, List.flatMap_cons, insertAll_append]
    unfold registryMergeOne
    rw [registryMergeOne_eq]

theorem processFile_loaded (st : DiscoverState) (f : FileEntry) (m : ModuleContents)
    (hund : strHeadIs f.stem '_' = false) (hload : f.load = .loaded m) :
    processFile st f = ⟨insertAll st.commands (fileInsertions f.stem m), st.log⟩ := by
  unfold processFile
  rw [hund, hload]
  simp only [Bool.false_eq_true, if_false]
  unfold fileInsertions
  rw [insertAll_append, registries_fold_eq]
  cases hc : m.commandAttr with
  | none => rfl
  | some c =>
    by_cases hb : c.isBaseCommandSubclass = true
    · simp [hb, insertAll]
    · simp only [Bool.not_eq_true] at hb
      simp [hb, insertAll]

/-- C6: discovery processes the command files in sorted order, skipping
underscore-prefixed stems; a file whose load raises is logged and
skipped while the fold continues; a loaded file applies the
direct-convention write (under the file stem) before the
registry-convention writes; and every write silently overwrites an
existing entry of the same name — the last write for a name wins and
names a file does not write are preserved. -/
theorem claim_C6 :
    (∀ files, Runner.discover true files =
        (List.insertionSort fileLe files).foldl processFile ⟨[], []⟩ ∧
      List.Sorted fileLe (List.insertionSort fileLe files)) ∧
    (∀ st f, strHeadIs f.stem '_' = true → processFile st f = st) ∧
    (∀ st f exc, strHeadIs f.stem '_' = false → f.load = .execError exc →
      processFile st f = ⟨st.commands, st.log ++ [loadErrorMsg f exc]⟩) ∧
    (∀ st f m, strHeadIs f.stem '_' = false → f.load = .loaded m →
      processFile st f = ⟨insertAll st.commands (fileInsertions f.stem m), st.log⟩) ∧
    (∀ stem m, fileInsertions stem m =
      (match m.commandAttr with
       | some c => if c.isBaseCommandSubclass then [(stem, c)] else []
       | none => []) ++
      m.registries.flatMap (fun reg =>
        (list_commands reg).filterMap (fun n => (dlookup reg n).map (fun c => (n, c))))) ∧
    (∀ d kvs n, dlookup (insertAll d kvs) n =
      match lastProvided kvs n with
      | some c => some c
      | none => dlookup d n) ∧
    (∀ st f m n c, strHeadIs f.stem '_' = false → f.load = .loaded m →
      lastProvided (fileInsertions f.stem m) n = some c →
      dlookup (processFile st f).commands n = some c) ∧
    (∀ st f m n, strHeadIs f.stem '_' = false → f.load = .loaded m →
      lastProvided (fileInsertions f.stem m) n = none →
      dlookup (processFile st f).commands n = dlookup st.commands n) := by
  refine ⟨?_, ?_, ?_, ?_, fun stem m => rfl, ?_, ?_, ?_⟩
  · intro files
    exact ⟨rfl, List.sorted_insertionSort fileLe files⟩
  · intro st f h
    unfold processFile
    rw [h]
    rfl
  · intro st f exc hund hload
    unfold processFile
    rw [hund, hload]
    simp
  · exact processFile_loaded
  · intro d kvs n
    exact dlookup_insertAll kvs d n
  · intro st f m n c hund hload hlast
    rw [processFile_loaded st f m hund hload]
    simp only
    rw [dlookup_insertAll, hlast]
  · intro st f m n hund hload hlast
    rw [processFile_loaded st f m hund hload]
    simp only
    rw [dlookup_insertAll, hlast]

/-- Command class provided by the concrete registry-convention file of
the C6 witness, under the same name as the direct convention. -/
def cOverride : CmdClass := ⟨"OverrideCommand", true, "registry wins"⟩

/-- Concrete loaded module for the C6 witness: a direct-convention
`Command` class and one registry that re-registers the same name. -/
def modGreet : ModuleContents := ⟨some cA, [[("greet", cOverride)]]⟩

/-- Concrete file entries for the C6 witness. -/
def fGreet : FileEntry := ⟨"greet", "commands/greet.py", .loaded modGreet⟩

/-- A file whose load raises, for the C6 witness. -/
def fBroken : FileEntry := ⟨"broken", "commands/broken.py", .execError "SyntaxError"⟩

/-- An underscore-prefixed file, for the C6 witness. -/
def fPrivate : FileEntry := ⟨"_helpers", "commands/_helpers.py", .loaded ⟨some cB, []⟩⟩

/-- Concrete instance of C6: the private file leaves the state alone,
the broken file only logs, and in the loaded file the registry entry
for "greet" (written after the direct-convention entry) wins. -/
theorem claim_C6_witness :
    processFile ⟨[], []⟩ fPrivate = ⟨[], []⟩ ∧
    processFile ⟨[], []⟩ fBroken =
      ⟨[], [loadErrorMsg fBroken "SyntaxError"]⟩ ∧
    dlookup (processFile ⟨[], []⟩ fGreet).commands "greet" = some cOverride :=
  ⟨(claim_C6.2.1) ⟨[], []⟩ fPrivate (by decide),
   (claim_C6.2.2.1) ⟨[], []⟩ fBroken "SyntaxError" (by decide) rfl,
   (claim_C6.2.2.2.2.2.2.1) ⟨[], []⟩ fGreet modGreet "greet" cOverride
     (by decide) rfl (by decide)⟩

/-! Claim C9. -/

/-- C9: both run entry points replace an empty (or absent) argv
argument by the live `sys.argv`, so an explicit empty argument list
cannot request the usage summary — the dispatch is the one `sys.argv`
selects, and in particular a command-naming `sys.argv` dispatches that
command instead of printing help. -/
theorem claim_C9 (d : CmdDict) (sysArgv : List String) :
    effectiveArgv (some []) sysArgv = sysArgv ∧
    effectiveArgv none sysArgv = sysArgv ∧
    CommandRegistry.run d (some []) sysArgv = CommandRegistry.run d none sysArgv ∧
    Runner.runWith d (some []) sysArgv = Runner.runWith d none sysArgv ∧
    (∀ prog sub rest cls, sysArgv = prog :: sub :: rest →
      sub ≠ "-h" → sub ≠ "--help" → dlookup d sub = some cls →
      CommandRegistry.run d (some []) sysArgv = .invoked cls (prog :: rest)) := by
  refine ⟨rfl, rfl, rfl, rfl, ?_⟩
  intro prog sub rest cls he h1 h2 hlk
  unfold CommandRegistry.run
  have heff : effectiveArgv (some []) sysArgv = prog :: sub :: rest := he
  rw [heff, registry_runArgv_cons2]
  have hb : (sub == "-h" || sub == "--help") = false := by simp [h1, h2]
  rw [hb]
  simp only [Bool.false_eq_true, if_false]
  rw [hlk]

/-- Concrete instance of C9: with `sys.argv` naming a registered
command, running with an explicitly empty argv dispatches the command
rather than printing the usage summary. -/
theorem claim_C9_witness :
    CommandRegistry.run d0 (some []) ["prog", "b"] = .invoked cB ["prog"] :=
  (claim_C9 d0 ["prog", "b"]).2.2.2.2 "prog" "b" [] cB rfl (by decide) (by decide) rfl

theorem runner_runArgv_cons2 (d : CmdDict) (prog sub : String) (rest : List String) :
    Runner.runArgv d (prog :: sub :: rest) =
      if sub == "-h" || sub == "--help" then
        .helpExit 0 prog (runnerHelpTable d)
      else
        match dlookup d sub with
        | none => .unknownExit 1 sub (list_commands d)
        | some cls => .invoked cls (prog :: rest) := rfl

/-! Claim C10. -/

/-- C10: when the commands directory does not exist (or is not a
directory), discovery returns an empty mapping and an empty log without
raising, and any requested sub-command is then reported unknown — with
no available names, rendered "(none found)" — and the process exits
with code 1. -/
theorem claim_C10 (files : List FileEntry) (argv : Option (List String))
    (sysArgv : List String) (prog sub : String) (rest : List String)
    (he : effectiveArgv argv sysArgv = prog :: sub :: rest)
    (h1 : sub ≠ "-h") (h2 : sub ≠ "--help") :
    Runner.discover false files = ⟨[], []⟩ ∧
    Runner.run false files argv sysArgv = .unknownExit 1 sub [] ∧
    runnerAvailableMsg [] = "(none found)" := by
  refine ⟨rfl, ?_, rfl⟩
  unfold Runner.run Runner.runWith Runner.discover
  simp only [Bool.false_eq_true, if_false]
  rw [he, runner_runArgv_cons2]
  have hb : (sub == "-h" || sub == "--help") = false := by simp [h1, h2]
  rw [hb]
  simp only [Bool.false_eq_true, if_false]
  rfl

/-- Concrete instance of C10: a missing commands directory makes every
sub-command unknown with an empty listing and exit code 1. -/
theorem claim_C10_witness :
    Runner.run false [fGreet] (some ["prog", "greet"]) [] =
      .unknownExit 1 "greet" [] :=
  (claim_C10 [fGreet] (some ["prog", "greet"]) [] "prog" "greet" []
    rfl (by decide) (by decide)).2.1

end PyBaseCommand
